import Mathlib

/-!
A Lean model of `pyshield.py`, a Cython batch-compilation tool, together with
theorems about its module-selection logic, package inference, copy helpers and
resilient compilation orchestration.

Modelling conventions:
* A filesystem path is its list of segments (`pathlib.Path.parts`), e.g.
  `Path("proj/utils/a.py")` is `["proj", "utils", "a.py"]`.
* The project filesystem is the list of its *files* (directories are implied
  by the files inside them; an empty directory is not representable, and
  `is_dir` is modelled as "some file lies strictly below this path").
* Python string operations are modelled by explicit functions on the
  underlying character lists so that every definition evaluates by `decide`.
* The external Cython compiler is an oracle (`CompileEnv`): for each extension
  it reports either a returned result list together with the stderr text it
  emitted, or a raised exception with its stderr text and `repr`.
-/

namespace PyShield

/-- A filesystem path as its list of segments (`Path.parts`). -/
abbrev FsPath := List String

/-- `Path.name`: the final path segment (`""` for an empty path). -/
def pathName (p : FsPath) : String :=
  p.getLast?.getD ""

/-- Model of Python `str.startswith`. -/
def strStartsWith (s pre : String) : Bool :=
  pre.data.isPrefixOf s.data

/-- Model of Python `str.endswith`. -/
def strEndsWith (s suf : String) : Bool :=
  suf.data.isSuffixOf s.data

/-- Model of Python `s[n:]`. -/
def strDrop (s : String) (n : Nat) : String :=
  String.mk (s.data.drop n)

/-- Model of Python `len(s)`. -/
def strLength (s : String) : Nat :=
  s.data.length

/-- Model of Python `c in s` for a single character. -/
def strContains (s : String) (c : Char) : Bool :=
  s.data.contains c

/-- Model of Python `str.strip()` (remove leading/trailing whitespace). -/
def strTrim (s : String) : String :=
  String.mk (((s.data.dropWhile Char.isWhitespace).reverse.dropWhile Char.isWhitespace).reverse)

/-- Model of Python `str.lower()`. -/
def strToLower (s : String) : String :=
  String.mk (s.data.map Char.toLower)

/-- Index of the last `'.'` in a character list (`str.rfind('.')`), if any. -/
def lastDotIdx? (cs : List Char) : Option Nat :=
  if cs.contains '.' then some (cs.length - 1 - cs.reverse.indexOf '.') else none

/-- `pathlib` suffix of a file name: `name[i:]` where `i = name.rfind('.')`,
provided `0 < i < len(name) - 1`, else `""`. -/
def fileSuffix (name : String) : String :=
  match lastDotIdx? name.data with
  | none => ""
  | some i => if 0 < i ∧ i < name.data.length - 1 then String.mk (name.data.drop i) else ""

/-- `pathlib` stem: the name with its suffix removed (`with_suffix("")` on the
final segment). -/
def stemOf (name : String) : String :=
  String.mk (name.data.take (name.data.length - (fileSuffix name).data.length))

/-- `Path.with_suffix("")`: replace the final segment by its stem. -/
def withSuffixEmpty (p : FsPath) : FsPath :=
  match p with
  | [] => []
  | _ => p.dropLast ++ [stemOf (pathName p)]

/-- `Path.relative_to`: drop the root prefix, or fail (`ValueError`) when the
path does not lie under the root. -/
def relativeTo? (p root : FsPath) : Option FsPath :=
  if root.isPrefixOf p then some (p.drop root.length) else none

/-- Default directory names excluded from compilation (`EXCLUDE_DIRS`). -/
def EXCLUDE_DIRS : List String := [".idea", "venv", ".venv", ".cache", "build", "__pycache__"]

/-- Permanently excluded file names (`EXCLUDE_FILES`). -/
def EXCLUDE_FILES : List String := ["setup.py"]

/-- Name prefixes of ignored modules (`EXCLUDE_PREFIXES`). -/
def EXCLUDE_PREFIXES : List String := [".", "_"]

/-- The body of the wildcard-exclusion loop of `is_valid_module`: pattern
`pattern` causes `file_path` to be skipped when the pattern has the shape
`*<name>.py` (leading `*`, `.py` tail, length above 2, no `/` after the `*`)
and the file's name equals `pattern[1:]`. -/
def globCond (file_path : FsPath) (pattern : String) : Prop :=
  strStartsWith pattern "*" = true ∧ strEndsWith pattern ".py" = true ∧
    2 < strLength pattern ∧ ¬ strContains (strDrop pattern 1) '/' = true ∧
    pathName file_path = strDrop pattern 1

instance (file_path : FsPath) (pattern : String) : Decidable (globCond file_path pattern) := by
  unfold globCond; infer_instance

/-- `is_valid_module`: decides whether a `.py` file takes part in Cython
compilation.  Direct translation of the ordered checks of the source:
suffix, banned file names, hidden/private prefix (sparing `__init__.py`),
excluded directories, exact relative-path exclusion, then `*<name>.py`
wildcard exclusion. -/
def is_valid_module (file_path : FsPath) (exclude_dirs_set : List String)
    (exclude_py_set : List String) (root_path : FsPath) : Bool :=
  if fileSuffix (pathName file_path) ≠ ".py" then false
  else if pathName file_path ∈ EXCLUDE_FILES then false
  else if (∃ pre ∈ EXCLUDE_PREFIXES, strStartsWith (pathName file_path) pre = true) ∧
      pathName file_path ≠ "__init__.py" then false
  else if ∃ part ∈ file_path, part ∈ exclude_dirs_set then false
  else
    match relativeTo? file_path root_path with
    | none => false
    | some rel =>
      if String.intercalate "/" rel ∈ exclude_py_set then false
      else if ∃ pattern ∈ exclude_py_set, globCond file_path pattern then false
      else true

/-- The classification outcome of a scanned file, with the reason recorded.
This annotates the decision cascade of `is_valid_module`; `compile` is its
`true` branch. -/
inductive ModuleClass where
  | notSource
  | bannedFile
  | hiddenPrefix
  | excludedDir
  | outsideRoot
  | exactPath
  | globMatch
  | compile
deriving DecidableEq, Repr

/-- Reason-annotated variant of `is_valid_module`: same ordered cascade, but
returning which rule fired. -/
def classifyModule (file_path : FsPath) (exclude_dirs_set : List String)
    (exclude_py_set : List String) (root_path : FsPath) : ModuleClass :=
  if fileSuffix (pathName file_path) ≠ ".py" then .notSource
  else if pathName file_path ∈ EXCLUDE_FILES then .bannedFile
  else if (∃ pre ∈ EXCLUDE_PREFIXES, strStartsWith (pathName file_path) pre = true) ∧
      pathName file_path ≠ "__init__.py" then .hiddenPrefix
  else if ∃ part ∈ file_path, part ∈ exclude_dirs_set then .excludedDir
  else
    match relativeTo? file_path root_path with
    | none => .outsideRoot
    | some rel =>
      if String.intercalate "/" rel ∈ exclude_py_set then .exactPath
      else if ∃ pattern ∈ exclude_py_set, globCond file_path pattern then .globMatch
      else .compile

/-- `classifyModule` refines `is_valid_module`: the file is compiled exactly
when the cascade reaches the final branch. -/
theorem classifyModule_compile_iff (file_path : FsPath) (xd xp : List String) (root : FsPath) :
    classifyModule file_path xd xp root = .compile ↔
      is_valid_module file_path xd xp root = true := by
  unfold classifyModule is_valid_module
  rcases hrel : relativeTo? file_path root with _ | rel <;>
    simp only [hrel] <;> split_ifs <;> simp_all

/-- `root_path.rglob("*.py")`: the files lying strictly under the root whose
name matches the glob `*.py` (i.e. ends with `.py`), in filesystem order. -/
def scanPyFiles (fs : List FsPath) (root : FsPath) : List FsPath :=
  fs.filter fun f =>
    root.isPrefixOf f && decide (root.length < f.length) && strEndsWith (pathName f) ".py"

/-- An extension module handed to Cython: the derived dotted module name and
the single source path (`Extension(module_name, [str(py_file)])`). -/
structure Ext where
  module_name : String
  source : FsPath
deriving DecidableEq, Repr

/-- Module name of a compile unit:
`".".join(py_file.with_suffix("").relative_to(root_path).parts)`. -/
def moduleName (root f : FsPath) : String :=
  String.intercalate "." ((withSuffixEmpty f).drop root.length)

/-- Whether directory `dir` holds a package marker: `(dir / "__init__.py").exists()`. -/
def hasInit (fs : List FsPath) (dir : FsPath) : Bool :=
  decide ((dir ++ ["__init__.py"]) ∈ fs)

/-- Fuel-indexed ancestor walk: visit the current directory, then its parent,
`n` more times. -/
def parentChainGo : Nat → FsPath → List FsPath
  | 0, d => [d]
  | n + 1, d => d :: parentChainGo n d.dropLast

/-- The `while True` ancestor walk of `collect_extensions_and_packages`: the
directories from `dir` up to `root_path` inclusive, for a directory lying
under the root (on which the loop's `parent == root_path` exit is reached
after exactly `dir.length - root.length` steps). -/
def parentChain (root dir : FsPath) : List FsPath :=
  parentChainGo (dir.length - root.length) dir

/-- Package name registered for directory `dir`:
`".".join(parent.relative_to(root_path).parts) or "."`. -/
def pkgName (root dir : FsPath) : String :=
  let s := String.intercalate "." (dir.drop root.length)
  if s = "" then "." else s

/-- Package names contributed by one scanned file: each directory between the
file's parent and the root (inclusive) holding an `__init__.py`. -/
def pkgWalkNames (fs : List FsPath) (root : FsPath) (file : FsPath) : List String :=
  ((parentChain root file.dropLast).filter fun d => hasInit fs d).map (pkgName root)

/-- The extension list built by `collect_extensions_and_packages`: every
scanned file passing `is_valid_module` whose name is not `__init__.py`, with
its derived module name. -/
def collectExtensions (fs : List FsPath) (exclude_dirs_set exclude_py_set : List String)
    (root : FsPath) : List Ext :=
  (((scanPyFiles fs root).filter fun f => is_valid_module f exclude_dirs_set exclude_py_set root).filter
      fun f => pathName f ≠ "__init__.py").map
    fun f => Ext.mk (moduleName root f) f

/-- The sorted package list built by `collect_extensions_and_packages`: the
ancestor-walk names of every valid scanned file, as a set (`dedup`), sorted
(`sorted(packages)`). -/
def collectPackages (fs : List FsPath) (exclude_dirs_set exclude_py_set : List String)
    (root : FsPath) : List String :=
  ((((scanPyFiles fs root).filter fun f =>
      is_valid_module f exclude_dirs_set exclude_py_set root).flatMap
        (pkgWalkNames fs root)).dedup).insertionSort (· ≤ ·)

/-- `Path.is_dir()` in the file-list model: some file lies strictly below. -/
def isDir (fs : List FsPath) (d : FsPath) : Bool :=
  fs.any fun f => d.isPrefixOf f && decide (d.length < f.length)

/-- The files selected by `copy_non_python_files`: every file under the source
root whose lowered suffix is not `.py`/`.pyx` and which lies in no excluded
directory. -/
def files_to_copy (fs : List FsPath) (source : FsPath) (exclude_dirs_set : List String) : List FsPath :=
  fs.filter fun f =>
    source.isPrefixOf f && decide (source.length < f.length) &&
      !decide (strToLower (fileSuffix (pathName f)) ∈ [".py", ".pyx"]) &&
      !decide (∃ part ∈ f, part ∈ exclude_dirs_set)

/-- The files selected by `copy_init_py_files`: every `__init__.py` under the
source root lying in no excluded directory. -/
def init_files (fs : List FsPath) (source : FsPath) (exclude_dirs_set : List String) : List FsPath :=
  fs.filter fun f =>
    source.isPrefixOf f && decide (source.length < f.length) &&
      decide (pathName f = "__init__.py") &&
      !decide (∃ part ∈ f, part ∈ exclude_dirs_set)

/-- The source files copied by `copy_excluded_directories`: for each name in
the user's exclusion list, if `source / name` is a directory, its whole
subtree (`shutil.copytree`). -/
def copy_excluded_directories (fs : List FsPath) (source : FsPath)
    (exclude_dirs_list : List String) : List FsPath :=
  exclude_dirs_list.flatMap fun name =>
    if isDir fs (source ++ [name]) then
      fs.filter fun f => (source ++ [name]).isPrefixOf f
    else []

/-- Split a character list at `/` separators. -/
def splitSlash : List Char → List (List Char)
  | [] => [[]]
  | c :: rest =>
    match splitSlash rest with
    | [] => [[]]
    | seg :: segs => if c = '/' then [] :: seg :: segs else (c :: seg) :: segs

/-- `source / pattern` for a textual relative path: split the pattern at `/`
into segments. -/
def splitPath (s : String) : List String :=
  (splitSlash s.data).map fun cs => String.mk cs

/-- The pattern analysis of `copy_excluded_python_files`: each pattern is
stripped, then either matched (globally by filename for a well-formed
`*<name>.py` wildcard, or as an exact existing `.py` path) or recorded as
invalid and merely warned about.  Returns `(matched_files, invalid_patterns)`
in processing order.  Modelling caveat: `source.rglob(pattern[1:])` is
modelled as exact filename equality; for an accepted pattern whose tail
itself still contains glob magic (e.g. `**x.py` or `*?.py`) the source
glob-matches where this model requires the literal name — no theorem in this
file exercises such a pattern. -/
def classify_exclude_py (fs : List FsPath) (source : FsPath) :
    List String → List (FsPath × String) × List String
  | [] => ([], [])
  | pattern :: rest =>
    let p := strTrim pattern
    let acc := classify_exclude_py fs source rest
    if strContains p '*' then
      if !strStartsWith p "*" || !strEndsWith p ".py" || decide (strLength p < 3) ||
          strContains (strDrop p 1) '/' then
        (acc.1, p :: acc.2)
      else
        let filename := strDrop p 1
        let found := fs.filter fun f =>
          source.isPrefixOf f && decide (source.length < f.length) &&
            decide (pathName f = filename)
        (found.map (fun f => (f, p)) ++ acc.1, acc.2)
    else
      let file_path := source ++ splitPath p
      if decide (file_path ∈ fs) && decide (fileSuffix (pathName file_path) = ".py") then
        ((file_path, p) :: acc.1, acc.2)
      else
        (acc.1, p :: acc.2)

/-- The files preserved by `copy_failed_py_files`: each failed source that
still exists and lies under the project root (`relative_to` succeeding). -/
def copy_failed_py_files (fs : List FsPath) (proj : FsPath) (failed_files : List FsPath) : List FsPath :=
  failed_files.filter fun src => decide (src ∈ fs) && proj.isPrefixOf src

/-- What one `cythonize([ext], ...)` invocation does: either it returns a
result list (possibly empty) having written `stderrText` to the captured
stderr, or it raises an exception whose `repr` is `exnRepr`, likewise with
captured stderr. -/
inductive CompileRun where
  | ok (result : List Ext) (stderrText : String)
  | raised (stderrText : String) (exnRepr : String)

/-- The external-world oracle of the orchestrator: `os.path.isfile` at
dispatch time, and the behaviour of the Cython compiler on each extension. -/
structure CompileEnv where
  isfile : FsPath → Bool
  cythonizeOne : Ext → CompileRun

/-- The mutable state of the `safe_cythonize` loop.  `compiled` and `failed`
are the two returned accumulators of the source; `invoked` additionally
records, in order, the sources for which `cythonize` was actually called,
modelling the call as an observable event. -/
structure CyState where
  compiled : List Ext
  failed : List (FsPath × String)
  invoked : List FsPath
deriving DecidableEq

/-- Insertion into a Python `dict` modelled as an association list: replace
the value under an existing key, else append. -/
def dictInsert (d : List (FsPath × String)) (k : FsPath) (v : String) : List (FsPath × String) :=
  if d.any fun kv => kv.1 == k then
    d.map fun kv => if kv.1 == k then (k, v) else kv
  else d ++ [(k, v)]

/-- The body of the `safe_cythonize` loop for one extension: a missing source
is recorded as failed without invoking the compiler; otherwise `cythonize` is
invoked and a truthy result extends `compiled`, a falsy result records the
captured stderr (or a fixed unknown-error message), and an exception records
the captured stderr followed by the exception's `repr`. -/
def cyStep (env : CompileEnv) (st : CyState) (ext : Ext) : CyState :=
  if env.isfile ext.source = false then
    { st with failed := dictInsert st.failed ext.source "源文件不存在" }
  else
    match env.cythonizeOne ext with
    | .ok result stderrText =>
      if result.isEmpty then
        { st with
          failed := dictInsert st.failed ext.source
            (if strTrim stderrText ≠ "" then strTrim stderrText else "未知编译错误"),
          invoked := st.invoked ++ [ext.source] }
      else
        { st with compiled := st.compiled ++ result, invoked := st.invoked ++ [ext.source] }
    | .raised stderrText exnRepr =>
      { st with
        failed := dictInsert st.failed ext.source
          (strTrim stderrText ++ "\n\nException: " ++ exnRepr),
        invoked := st.invoked ++ [ext.source] }

/-- The `for ext in extensions` loop of `safe_cythonize`. -/
def safe_cythonize_go (env : CompileEnv) (st : CyState) : List Ext → CyState
  | [] => st
  | ext :: rest => safe_cythonize_go env (cyStep env st ext) rest

/-- `safe_cythonize`: process every extension in order starting from empty
accumulators. -/
def safe_cythonize (env : CompileEnv) (extensions : List Ext) : CyState :=
  safe_cythonize_go env { compiled := [], failed := [], invoked := [] } extensions

/-- Whether a unit passes the compiler stage: its source exists and
`cythonize` returns a truthy (non-empty) result. -/
def unitSucceeds (env : CompileEnv) (e : Ext) : Bool :=
  env.isfile e.source &&
    match env.cythonizeOne e with
    | .ok result _ => !result.isEmpty
    | .raised _ _ => false

/-- The diagnostic `safe_cythonize` records for a failing unit. -/
def unitDiag (env : CompileEnv) (e : Ext) : String :=
  if env.isfile e.source = false then "源文件不存在"
  else
    match env.cythonizeOne e with
    | .ok _ stderrText =>
      if strTrim stderrText ≠ "" then strTrim stderrText else "未知编译错误"
    | .raised stderrText exnRepr => strTrim stderrText ++ "\n\nException: " ++ exnRepr

/-- The result list a unit's `cythonize` call contributes on success. -/
def unitResult (env : CompileEnv) (e : Ext) : List Ext :=
  match env.cythonizeOne e with
  | .ok result _ => result
  | .raised _ _ => []

/-- `compile_with_cython`: nothing to do on an empty batch; otherwise run
`safe_cythonize` and, when no module survived the Cython stage, skip the
`setup` link step and return the empty artifact list with the failure map
(the `setup` step never changes the returned pair, a raised build error
included). -/
def compile_with_cython (env : CompileEnv) (extensions : List Ext) :
    List Ext × List (FsPath × String) :=
  if extensions.isEmpty then ([], [])
  else
    let st := safe_cythonize env extensions
    if st.compiled.isEmpty then ([], st.failed)
    else (st.compiled, st.failed)

/-- The observables of one `main()` run: the exit code, whether the copy
stages (step 7 of `main`) were reached, the build plan, the orchestrator's
outputs, what each copy helper copies, the invalid-pattern warnings of
`copy_excluded_python_files`, and the failed files named in the final
report. -/
structure RunResult where
  exitCode : Nat
  ranCopyStages : Bool
  extensions : List Ext
  artifacts : List Ext
  failedMap : List (FsPath × String)
  copiedResources : List FsPath
  copiedInits : List FsPath
  copiedExcludedDirs : List FsPath
  copiedExcludedPys : List (FsPath × String)
  copiedFailed : List FsPath
  invalidPatternWarnings : List String
  failedReport : List FsPath
deriving DecidableEq

/-- `main()` modelled end-to-end (the CLI parsing, console output, thread
count and on-disk writes aside): validate the project path (exit 1 when it is
no directory), merge the user and default directory exclusions, collect the
extensions, compile, run every copy stage, and report — returning normally,
hence with process exit code 0, whether or not units failed. -/
def mainRun (env : CompileEnv) (fs : List FsPath) (projectRoot : FsPath)
    (exclude_dirs_list exclude_py_list : List String) : RunResult :=
  if isDir fs projectRoot = false then
    { exitCode := 1, ranCopyStages := false, extensions := [], artifacts := [],
      failedMap := [], copiedResources := [], copiedInits := [], copiedExcludedDirs := [],
      copiedExcludedPys := [], copiedFailed := [], invalidPatternWarnings := [],
      failedReport := [] }
  else
    let exclude_dirs_set := exclude_dirs_list ++ EXCLUDE_DIRS
    let exclude_py_set := exclude_py_list
    let exts := collectExtensions fs exclude_dirs_set exclude_py_set projectRoot
    let cr := compile_with_cython env exts
    let pys := classify_exclude_py fs projectRoot exclude_py_list
    { exitCode := 0
      ranCopyStages := true
      extensions := exts
      artifacts := cr.1
      failedMap := cr.2
      copiedResources := files_to_copy fs projectRoot exclude_dirs_set
      copiedInits := init_files fs projectRoot exclude_dirs_set
      copiedExcludedDirs := copy_excluded_directories fs projectRoot exclude_dirs_list
      copiedExcludedPys := pys.1
      copiedFailed := copy_failed_py_files fs projectRoot (cr.2.map fun kv => kv.1)
      invalidPatternWarnings := pys.2
      failedReport := cr.2.map fun kv => kv.1 }

/-- All project files that reach the output tree verbatim through any of the
copy stages of `main`. -/
def outputSources (r : RunResult) : List FsPath :=
  r.copiedResources ++ r.copiedInits ++ r.copiedExcludedDirs ++
    (r.copiedExcludedPys.map fun kv => kv.1) ++ r.copiedFailed

/-- A compiler oracle under which every source exists and every unit
cythonizes to itself without output. -/
def trivialEnv : CompileEnv :=
  { isfile := fun _ => true, cythonizeOne := fun e => CompileRun.ok [e] "" }

/-- Inserting a key absent from the association list appends. -/
theorem dictInsert_of_fresh (d : List (FsPath × String)) (k : FsPath) (v : String)
    (h : ∀ kv ∈ d, kv.1 ≠ k) : dictInsert d k v = d ++ [(k, v)] := by
  have hno : ¬((d.any fun kv => kv.1 == k) = true) := by
    simp only [List.any_eq_true, beq_iff_eq]
    rintro ⟨kv, hkv, hk⟩
    exact h kv hkv hk
  unfold dictInsert
  rw [if_neg hno]

/-- Characterization of the `safe_cythonize` loop from any starting state
whose failure map is disjoint from the batch: the loop visits every unit in
order; the successful units' results are appended to `compiled`, every
failing unit contributes exactly one failure entry keyed by its source with
its diagnostic, and the compiler is invoked exactly for the units whose
source exists. -/
theorem safe_cythonize_go_spec (env : CompileEnv) (exts : List Ext) :
    ∀ st : CyState,
      (exts.map fun e => e.source).Nodup →
      (∀ e ∈ exts, ∀ kv ∈ st.failed, kv.1 ≠ e.source) →
      safe_cythonize_go env st exts =
        { compiled := st.compiled ++ ((exts.filter fun e => unitSucceeds env e).flatMap
            fun e => unitResult env e),
          failed := st.failed ++ ((exts.filter fun e => !unitSucceeds env e).map
            fun e => (e.source, unitDiag env e)),
          invoked := st.invoked ++ ((exts.filter fun e => env.isfile e.source).map
            fun e => e.source) } := by
  induction exts with
  | nil =>
    intro st _ _
    simp [safe_cythonize_go]
  | cons ext rest ih =>
    intro st hnd hdisj
    have hnd' : (rest.map fun e => e.source).Nodup := (List.nodup_cons.mp (by simpa using hnd)).2
    have hfresh : ext.source ∉ rest.map fun e => e.source :=
      (List.nodup_cons.mp (by simpa using hnd)).1
    have hfail0 : ∀ kv ∈ st.failed, kv.1 ≠ ext.source := fun kv hkv =>
      hdisj ext (List.mem_cons_self _ _) kv hkv
    have hdisj' : ∀ (m : String), ∀ e ∈ rest,
        ∀ kv ∈ st.failed ++ [(ext.source, m)], kv.1 ≠ e.source := by
      intro m e he kv hkv
      rcases List.mem_append.mp hkv with h1 | h1
      · exact hdisj e (List.mem_cons_of_mem _ he) kv h1
      · rcases List.mem_singleton.mp h1 with rfl
        intro hc
        have hc' : ext.source = e.source := hc
        exact hfresh (by rw [hc']; exact List.mem_map_of_mem _ he)
    by_cases hisf : env.isfile ext.source = false
    · have hsucc : unitSucceeds env ext = false := by simp [unitSucceeds, hisf]
      have hstep : cyStep env st ext =
          { st with failed := st.failed ++ [(ext.source, "源文件不存在")] } := by
        unfold cyStep
        rw [if_pos hisf, dictInsert_of_fresh _ _ _ hfail0]
      have hdiag : unitDiag env ext = "源文件不存在" := by simp [unitDiag, hisf]
      simp only [safe_cythonize_go]
      rw [hstep, ih _ hnd' (hdisj' _)]
      simp [List.filter_cons, hsucc, hdiag, hisf, List.append_assoc]
    · have htrue : env.isfile ext.source = true := by
        revert hisf; cases env.isfile ext.source <;> simp
      rcases hrun : env.cythonizeOne ext with ⟨result, stderrText⟩ | ⟨stderrText, exnRepr⟩
      · by_cases hemp : result.isEmpty = true
        · have hsucc : unitSucceeds env ext = false := by
            simp [unitSucceeds, htrue, hrun, hemp]
          have hstep : cyStep env st ext =
              { st with
                failed := st.failed ++
                  [(ext.source, if strTrim stderrText ≠ "" then strTrim stderrText else "未知编译错误")],
                invoked := st.invoked ++ [ext.source] } := by
            unfold cyStep
            rw [if_neg (by simp [htrue]), hrun]
            simp only [hemp, if_true, dictInsert_of_fresh _ _ _ hfail0]
          have hdiag : unitDiag env ext =
              if strTrim stderrText ≠ "" then strTrim stderrText else "未知编译错误" := by
            simp only [unitDiag, htrue, hrun]
            simp
          simp only [safe_cythonize_go]
          rw [hstep, ih _ hnd' (hdisj' _)]
          simp [List.filter_cons, hsucc, hdiag, htrue, List.append_assoc]
        · have hsucc : unitSucceeds env ext = true := by
            simp [unitSucceeds, htrue, hrun, hemp]
          have hres : unitResult env ext = result := by simp [unitResult, hrun]
          have hstep : cyStep env st ext =
              { st with
                compiled := st.compiled ++ result,
                invoked := st.invoked ++ [ext.source] } := by
            unfold cyStep
            rw [if_neg (by simp [htrue]), hrun]
            simp [hemp]
          simp only [safe_cythonize_go]
          rw [hstep, ih { st with compiled := st.compiled ++ result, invoked := st.invoked ++ [ext.source] }
            hnd' (fun e he kv hkv => hdisj e (List.mem_cons_of_mem _ he) kv hkv)]
          simp [List.filter_cons, hsucc, hres, htrue, List.append_assoc]
      · have hsucc : unitSucceeds env ext = false := by
          simp [unitSucceeds, htrue, hrun]
        have hstep : cyStep env st ext =
            { st with
              failed := st.failed ++ [(ext.source, strTrim stderrText ++ "\n\nException: " ++ exnRepr)],
              invoked := st.invoked ++ [ext.source] } := by
          unfold cyStep
          rw [if_neg (by simp [htrue]), hrun]
          simp only [dictInsert_of_fresh _ _ _ hfail0]
        have hdiag : unitDiag env ext = strTrim stderrText ++ "\n\nException: " ++ exnRepr := by
          simp [unitDiag, htrue, hrun]
        simp only [safe_cythonize_go]
        rw [hstep, ih _ hnd' (hdisj' _)]
        simp [List.filter_cons, hsucc, hdiag, htrue, List.append_assoc]

/-- `safe_cythonize` on a batch with pairwise-distinct sources: closed form
of the two returned accumulators and of the set of compiler invocations. -/
theorem safe_cythonize_spec (env : CompileEnv) (extensions : List Ext)
    (hnodup : (extensions.map fun e => e.source).Nodup) :
    safe_cythonize env extensions =
      { compiled := (extensions.filter fun e => unitSucceeds env e).flatMap
          fun e => unitResult env e,
        failed := (extensions.filter fun e => !unitSucceeds env e).map
          fun e => (e.source, unitDiag env e),
        invoked := (extensions.filter fun e => env.isfile e.source).map
          fun e => e.source } := by
  have h := safe_cythonize_go_spec env extensions { compiled := [], failed := [], invoked := [] }
    hnodup (by intro e _ kv hkv; simp at hkv)
  simpa [safe_cythonize] using h

/-- An oracle raising a line-12 diagnostic on `proj/bad.py`, succeeding on
every other unit, with `proj/missing.py` absent from disk. -/
def mixedEnv : CompileEnv :=
  { isfile := fun p => decide (p ≠ ["proj", "missing.py"]),
    cythonizeOne := fun e =>
      if e.source = ["proj", "bad.py"] then
        CompileRun.raised "error at line 12" "CompileError(bad)"
      else CompileRun.ok [e] "" }

/-- An oracle under which every unit's compilation raises. -/
def failEnv : CompileEnv :=
  { isfile := fun _ => true,
    cythonizeOne := fun _ => CompileRun.raised "boom" "Exception(boom)" }

/-- C4: in `safe_cythonize`, every unit of a batch with distinct sources lands
in exactly one of the two outputs (the success list, characterized as the
concatenation of the successful units' results, or the failure map keyed by
source); an exception in one unit never prevents the others from being
processed (the closed forms range over the whole batch), and a raised
exception's diagnostic — captured stderr included — is attached to that
unit's failure entry. -/
theorem C4_unit_isolation (env : CompileEnv) (extensions : List Ext)
    (hnodup : (extensions.map fun e => e.source).Nodup) :
    (∀ ext ∈ extensions,
      (unitSucceeds env ext = true ∧
        ext.source ∉ (safe_cythonize env extensions).failed.map fun kv => kv.1) ∨
      (unitSucceeds env ext = false ∧
        ext.source ∈ (safe_cythonize env extensions).failed.map fun kv => kv.1))
    ∧ (safe_cythonize env extensions).compiled =
        ((extensions.filter fun e => unitSucceeds env e).flatMap fun e => unitResult env e)
    ∧ (safe_cythonize env extensions).failed =
        ((extensions.filter fun e => !unitSucceeds env e).map fun e => (e.source, unitDiag env e))
    ∧ ∀ ext ∈ extensions, ∀ s x, env.cythonizeOne ext = CompileRun.raised s x →
        env.isfile ext.source = true →
        (ext.source, strTrim s ++ "\n\nException: " ++ x) ∈ (safe_cythonize env extensions).failed := by
  have hspec := safe_cythonize_spec env extensions hnodup
  refine ⟨?_, by rw [hspec], by rw [hspec], ?_⟩
  · intro ext hext
    rcases Bool.eq_false_or_eq_true (unitSucceeds env ext) with hcase | hcase
    · left
      refine ⟨hcase, ?_⟩
      rw [hspec]
      intro hin
      simp only [List.map_map, List.mem_map, Function.comp, List.mem_filter,
        Bool.not_eq_true'] at hin
      obtain ⟨e, ⟨he, hfail⟩, hsrc⟩ := hin
      have : e = ext := List.inj_on_of_nodup_map hnodup he hext hsrc
      rw [this] at hfail
      rw [hcase] at hfail
      cases hfail
    · right
      refine ⟨hcase, ?_⟩
      rw [hspec]
      simp only [List.map_map, List.mem_map, Function.comp, List.mem_filter,
        Bool.not_eq_true']
      exact ⟨ext, ⟨hext, hcase⟩, rfl⟩
  · intro ext hext s x hrun hisf
    have hfail : unitSucceeds env ext = false := by simp [unitSucceeds, hrun]
    have hdiag : unitDiag env ext = strTrim s ++ "\n\nException: " ++ x := by
      simp [unitDiag, hisf, hrun]
    rw [hspec]
    simp only [List.mem_map, List.mem_filter, Bool.not_eq_true']
    exact ⟨ext, ⟨hext, hfail⟩, by rw [hdiag]⟩

/-- Witness for `C4_unit_isolation`: a two-unit batch where `bad.py` raises —
the good unit still compiles, and the bad unit's failure entry carries the
captured stderr and the exception text. -/
theorem C4_witness :
    (safe_cythonize mixedEnv [Ext.mk "good" ["proj", "good.py"], Ext.mk "bad" ["proj", "bad.py"]]).failed
        = [(["proj", "bad.py"], "error at line 12\n\nException: CompileError(bad)")]
    ∧ (safe_cythonize mixedEnv [Ext.mk "good" ["proj", "good.py"], Ext.mk "bad" ["proj", "bad.py"]]).compiled
        = [Ext.mk "good" ["proj", "good.py"]] := by
  have h := C4_unit_isolation mixedEnv
    [Ext.mk "good" ["proj", "good.py"], Ext.mk "bad" ["proj", "bad.py"]] (by decide)
  refine ⟨?_, ?_⟩
  · rw [h.2.2.1]; decide
  · rw [h.2.1]; decide

/-- C5: when every unit of a non-empty batch fails the Cython stage, the
build is not aborted: `compile_with_cython` returns no artifact together with
the complete failure map (one key per unit), the copy stages of `main` still
run, the process exits 0, and the final report names every failed file. -/
theorem C5_total_failure_not_aborted (env : CompileEnv) (fs : List FsPath) (root : FsPath)
    (userDirs userPys : List String)
    (hroot : isDir fs root = true)
    (hne : collectExtensions fs (userDirs ++ EXCLUDE_DIRS) userPys root ≠ [])
    (hnodup : ((collectExtensions fs (userDirs ++ EXCLUDE_DIRS) userPys root).map
      fun e => e.source).Nodup)
    (hfail : ∀ e ∈ collectExtensions fs (userDirs ++ EXCLUDE_DIRS) userPys root,
      unitSucceeds env e = false) :
    (mainRun env fs root userDirs userPys).exitCode = 0
    ∧ (mainRun env fs root userDirs userPys).ranCopyStages = true
    ∧ (mainRun env fs root userDirs userPys).artifacts = []
    ∧ (mainRun env fs root userDirs userPys).failedReport =
        ((collectExtensions fs (userDirs ++ EXCLUDE_DIRS) userPys root).map
          fun e => e.source) := by
  have hspec := safe_cythonize_spec env
    (collectExtensions fs (userDirs ++ EXCLUDE_DIRS) userPys root) hnodup
  have hfilter_all :
      ((collectExtensions fs (userDirs ++ EXCLUDE_DIRS) userPys root).filter
        fun e => !unitSucceeds env e) =
      collectExtensions fs (userDirs ++ EXCLUDE_DIRS) userPys root :=
    List.filter_eq_self.mpr (by intro e he; rw [hfail e he]; rfl)
  have hfilter_none :
      ((collectExtensions fs (userDirs ++ EXCLUDE_DIRS) userPys root).filter
        fun e => unitSucceeds env e) = [] := by
    rw [List.filter_eq_nil_iff]
    intro e he
    rw [hfail e he]
    exact Bool.false_ne_true
  have hcompile : compile_with_cython env
      (collectExtensions fs (userDirs ++ EXCLUDE_DIRS) userPys root) =
      ([], (collectExtensions fs (userDirs ++ EXCLUDE_DIRS) userPys root).map
        fun e => (e.source, unitDiag env e)) := by
    unfold compile_with_cython
    rw [if_neg (by simpa [List.isEmpty_iff] using hne)]
    rw [hspec]
    simp only [hfilter_all, hfilter_none, List.flatMap_nil, List.isEmpty_nil, if_true]
  unfold mainRun
  rw [if_neg (by simp [hroot])]
  simp only [hcompile, List.map_map, Function.comp]
  refine ⟨trivial, trivial, trivial, ?_⟩
  simp

/-- Witness for `C5_total_failure_not_aborted`: a one-file project whose only
unit raises — zero artifacts, copies still run, exit 0, failure report names
the file. -/
theorem C5_witness :
    (mainRun failEnv [["proj", "a.py"]] ["proj"] [] []).exitCode = 0
    ∧ (mainRun failEnv [["proj", "a.py"]] ["proj"] [] []).ranCopyStages = true
    ∧ (mainRun failEnv [["proj", "a.py"]] ["proj"] [] []).artifacts = []
    ∧ (mainRun failEnv [["proj", "a.py"]] ["proj"] [] []).failedReport =
        ((collectExtensions [["proj", "a.py"]] ([] ++ EXCLUDE_DIRS) [] ["proj"]).map
          fun e => e.source) :=
  C5_total_failure_not_aborted failEnv [["proj", "a.py"]] ["proj"] [] []
    (by decide) (by decide) (by decide) (by decide)

/-- C6: a unit whose source file does not exist at dispatch time is recorded
as failed with the distinct missing-source diagnostic, and the compiler is
not invoked for it. -/
theorem C6_missing_source_not_invoked (env : CompileEnv) (extensions : List Ext)
    (hnodup : (extensions.map fun e => e.source).Nodup)
    (ext : Ext) (hmem : ext ∈ extensions) (hmiss : env.isfile ext.source = false) :
    (ext.source, "源文件不存在") ∈ (safe_cythonize env extensions).failed
    ∧ ext.source ∉ (safe_cythonize env extensions).invoked := by
  have hspec := safe_cythonize_spec env extensions hnodup
  have hfail : unitSucceeds env ext = false := by simp [unitSucceeds, hmiss]
  have hdiag : unitDiag env ext = "源文件不存在" := by simp [unitDiag, hmiss]
  constructor
  · rw [hspec]
    simp only [List.mem_map, List.mem_filter, Bool.not_eq_true']
    exact ⟨ext, ⟨hmem, hfail⟩, by rw [hdiag]⟩
  · rw [hspec]
    intro hin
    simp only [List.mem_map, List.mem_filter] at hin
    obtain ⟨e, ⟨_, hisf⟩, hsrc⟩ := hin
    rw [hsrc] at hisf
    rw [hmiss] at hisf
    cases hisf

/-- Witness for `C6_missing_source_not_invoked` at a concrete missing file. -/
theorem C6_witness :
    (["proj", "missing.py"], "源文件不存在") ∈
      (safe_cythonize mixedEnv [Ext.mk "missing" ["proj", "missing.py"]]).failed
    ∧ ["proj", "missing.py"] ∉
      (safe_cythonize mixedEnv [Ext.mk "missing" ["proj", "missing.py"]]).invoked :=
  C6_missing_source_not_invoked mixedEnv [Ext.mk "missing" ["proj", "missing.py"]]
    (by decide) (Ext.mk "missing" ["proj", "missing.py"]) (by decide) (by decide)

/-- A file passing `is_valid_module` lies in no excluded directory. -/
theorem is_valid_module_no_excluded_dir {f : FsPath} {xd xp : List String} {root : FsPath}
    (h : is_valid_module f xd xp root = true) : ¬∃ part ∈ f, part ∈ xd := by
  intro hex
  unfold is_valid_module at h
  split_ifs at h

/-- `with_suffix("")` on a non-empty path replaces the final segment by its
stem. -/
theorem withSuffixEmpty_ne_nil {p : FsPath} (h : p ≠ []) :
    withSuffixEmpty p = p.dropLast ++ [stemOf (pathName p)] := by
  cases p with
  | nil => exact absurd rfl h
  | cons a as => rfl

/-- The name of an appended path is the name of its non-empty tail. -/
theorem pathName_append (root : FsPath) {r : FsPath} (h : r ≠ []) :
    pathName (root ++ r) = pathName r := by
  unfold pathName
  rw [List.getLast?_append]
  cases hr : r.getLast? with
  | none => exact absurd (List.getLast?_eq_none_iff.mp hr) h
  | some x => rfl

/-- The derived module name of a file strictly under the root is its relative
segments joined by `.`, with the final segment replaced by its stem. -/
theorem moduleName_eq_spec (root r : FsPath) (hne : r ≠ []) :
    moduleName root (root ++ r) =
      String.intercalate "."
        (((root ++ r).drop root.length).dropLast ++ [stemOf (pathName (root ++ r))]) := by
  have hp : root ++ r ≠ [] := List.append_ne_nil_of_right_ne_nil root hne
  unfold moduleName
  rw [withSuffixEmpty_ne_nil hp, List.dropLast_append_of_ne_nil root hne, List.drop_left,
    List.append_assoc, List.drop_left]

/-- C8: every file classified for compilation that is not the package marker
becomes a compile unit whose module name is the dotted join of its
project-relative segments with the suffix stripped; a valid `__init__.py` is
never emitted as a compile unit and is instead selected for verbatim copy by
`copy_init_py_files`. -/
theorem C8_module_name_and_init_copied (fs : List FsPath) (xd xp : List String)
    (root : FsPath) (f : FsPath) (hscan : f ∈ scanPyFiles fs root)
    (hvalid : is_valid_module f xd xp root = true) :
    (pathName f ≠ "__init__.py" →
      Ext.mk (moduleName root f) f ∈ collectExtensions fs xd xp root
      ∧ moduleName root f =
          String.intercalate "." ((f.drop root.length).dropLast ++ [stemOf (pathName f)]))
    ∧ (pathName f = "__init__.py" →
      (∀ e ∈ collectExtensions fs xd xp root, e.source ≠ f)
      ∧ f ∈ init_files fs root xd) := by
  have hscan' := hscan
  simp only [scanPyFiles, List.mem_filter, Bool.and_eq_true, decide_eq_true_eq] at hscan'
  obtain ⟨hfs, ⟨hpre, hlen⟩, _⟩ := hscan'
  obtain ⟨r, hr⟩ := List.isPrefixOf_iff_prefix.mp hpre
  have hrne : r ≠ [] := by
    intro hnil
    rw [hnil, List.append_nil] at hr
    rw [← hr] at hlen
    exact Nat.lt_irrefl _ hlen
  constructor
  · intro hname
    constructor
    · unfold collectExtensions
      refine List.mem_map.mpr ⟨f, ?_, rfl⟩
      exact List.mem_filter.mpr ⟨List.mem_filter.mpr ⟨hscan, hvalid⟩, by simpa using hname⟩
    · rw [← hr]
      exact moduleName_eq_spec root r hrne
  · intro hname
    constructor
    · intro e he hsrc
      unfold collectExtensions at he
      obtain ⟨g, hg, hge⟩ := List.mem_map.mp he
      have : g = f := by rw [← hge] at hsrc; exact hsrc
      rw [this] at hg
      have := (List.mem_filter.mp hg).2
      simp only [decide_eq_true_eq] at this
      exact this hname
    · unfold init_files
      refine List.mem_filter.mpr ⟨hfs, ?_⟩
      have hnodir := is_valid_module_no_excluded_dir hvalid
      simp only [Bool.and_eq_true, decide_eq_true_eq, Bool.not_eq_true',
        decide_eq_false_iff_not]
      exact ⟨⟨⟨hpre, hlen⟩, hname⟩, hnodir⟩

/-- Witness for `C8_module_name_and_init_copied`: `pkg/b.py` becomes compile
unit `pkg.b` and `pkg/__init__.py` is copied, not compiled. -/
theorem C8_witness :
    Ext.mk (moduleName ["proj"] ["proj", "pkg", "b.py"]) ["proj", "pkg", "b.py"] ∈
      collectExtensions [["proj", "pkg", "__init__.py"], ["proj", "pkg", "b.py"]] [] [] ["proj"]
    ∧ ["proj", "pkg", "__init__.py"] ∈
      init_files [["proj", "pkg", "__init__.py"], ["proj", "pkg", "b.py"]] ["proj"] [] := by
  have h1 := C8_module_name_and_init_copied
    [["proj", "pkg", "__init__.py"], ["proj", "pkg", "b.py"]] [] [] ["proj"]
    ["proj", "pkg", "b.py"] (by decide) (by decide)
  have h2 := C8_module_name_and_init_copied
    [["proj", "pkg", "__init__.py"], ["proj", "pkg", "b.py"]] [] [] ["proj"]
    ["proj", "pkg", "__init__.py"] (by decide) (by decide)
  exact ⟨(h1.1 (by decide)).1, (h2.2 (by decide)).2⟩

/-- C7: every ancestor directory (up to and including the root) of a valid
compile-selected file that holds a package marker is registered under its
dotted relative name, the root under the sentinel `"."`; the final package
list is duplicate-free, lexicographically sorted, and independent of the
order in which the filesystem enumerates the files. -/
theorem C7_package_registration (fs fs' : List FsPath) (xd xp : List String)
    (root : FsPath) (hperm : fs.Perm fs') :
    (∀ f ∈ scanPyFiles fs root, is_valid_module f xd xp root = true →
      ∀ d ∈ parentChain root f.dropLast, hasInit fs d = true →
        pkgName root d ∈ collectPackages fs xd xp root)
    ∧ pkgName root root = "."
    ∧ (collectPackages fs xd xp root).Nodup
    ∧ (collectPackages fs xd xp root).Sorted (· ≤ ·)
    ∧ collectPackages fs' xd xp root = collectPackages fs xd xp root := by
  refine ⟨?_, ?_, ?_, ?_, ?_⟩
  · intro f hf hvalid d hd hinit
    unfold collectPackages
    rw [List.mem_insertionSort, List.mem_dedup]
    refine List.mem_flatMap.mpr ⟨f, List.mem_filter.mpr ⟨hf, hvalid⟩, ?_⟩
    unfold pkgWalkNames
    exact List.mem_map.mpr ⟨d, List.mem_filter.mpr ⟨hd, hinit⟩, rfl⟩
  · unfold pkgName
    rw [List.drop_length]
    rfl
  · unfold collectPackages
    exact ((List.perm_insertionSort _ _).nodup_iff).mpr (List.nodup_dedup _)
  · exact List.sorted_insertionSort _ _
  · have hfun : pkgWalkNames fs' root = pkgWalkNames fs root := by
      funext f
      unfold pkgWalkNames
      congr 1
      refine List.filter_congr ?_
      intro d _
      unfold hasInit
      exact decide_eq_decide.mpr hperm.mem_iff.symm
    unfold collectPackages
    rw [hfun]
    have hperm2 : List.Perm
        (((scanPyFiles fs' root).filter fun f => is_valid_module f xd xp root).flatMap
          (pkgWalkNames fs root))
        (((scanPyFiles fs root).filter fun f => is_valid_module f xd xp root).flatMap
          (pkgWalkNames fs root)) :=
      List.Perm.flatMap_right _ ((hperm.filter _).filter _).symm
    exact List.eq_of_perm_of_sorted
      ((List.perm_insertionSort _ _).trans
        ((hperm2.dedup).trans (List.perm_insertionSort _ _).symm))
      (List.sorted_insertionSort _ _) (List.sorted_insertionSort _ _)

/-- Witness for `C7_package_registration`: `pkg` is registered, and reversing
the file discovery order leaves the package list unchanged. -/
theorem C7_witness :
    "pkg" ∈ collectPackages [["proj", "pkg", "__init__.py"], ["proj", "pkg", "b.py"]] [] [] ["proj"]
    ∧ collectPackages [["proj", "pkg", "b.py"], ["proj", "pkg", "__init__.py"]] [] [] ["proj"]
      = collectPackages [["proj", "pkg", "__init__.py"], ["proj", "pkg", "b.py"]] [] [] ["proj"] := by
  have h := C7_package_registration
    [["proj", "pkg", "__init__.py"], ["proj", "pkg", "b.py"]]
    [["proj", "pkg", "b.py"], ["proj", "pkg", "__init__.py"]] [] [] ["proj"] (by decide)
  constructor
  · have hp : pkgName ["proj"] ["proj", "pkg"] = "pkg" := by decide
    rw [← hp]
    exact h.1 ["proj", "pkg", "b.py"] (by decide) (by decide) ["proj", "pkg"] (by decide) (by decide)
  · exact h.2.2.2.2

/-- C1: the claim says a malformed wildcard exclusion pattern is rejected
before any scanning with a non-zero process exit.  The code diverges: on a
project holding `utils/greeter.py` with exclusion pattern `utils/*.py`, the
run scans and even compiles the very file the pattern targets (the pattern is
silently skipped by `is_valid_module`), the pattern is surfaced only as a
warning of the copy stage, and the process exits 0. -/
theorem C1_invalid_pattern_only_warned :
    (mainRun trivialEnv [["proj", "utils", "greeter.py"]] ["proj"] [] ["utils/*.py"]).exitCode = 0
    ∧ ["proj", "utils", "greeter.py"] ∈
        (mainRun trivialEnv [["proj", "utils", "greeter.py"]] ["proj"] [] ["utils/*.py"]).extensions.map
          Ext.source
    ∧ (mainRun trivialEnv [["proj", "utils", "greeter.py"]] ["proj"] [] ["utils/*.py"]).invalidPatternWarnings
        = ["utils/*.py"] := by
  decide

/-- C2 (counterexample): `venv` is in the merged default+user exclusion set
and `proj/venv/x.py` lies inside a directory of that name, so the file is
excluded from compilation; yet `copy_excluded_directories` copies nothing
(it receives only the user list) and the file reaches no copy stage at all,
refuting the claim that the excluded directory is copied whole into the
output. -/
theorem C2_counterexample :
    is_valid_module ["proj", "venv", "x.py"] ([] ++ EXCLUDE_DIRS) [] ["proj"] = false
    ∧ (mainRun trivialEnv [["proj", "venv", "x.py"]] ["proj"] [] []).copiedExcludedDirs = []
    ∧ outputSources (mainRun trivialEnv [["proj", "venv", "x.py"]] ["proj"] [] []) = [] := by
  decide

/-- C2 (amended): the excluded-directory copy stage copies exactly the
subtrees of the user-supplied exclusion names (not the merged default+user
set) that exist as directories directly at the project root — every file
under such a directory appears verbatim in the output through this stage,
and this stage copies nothing else. -/
theorem C2_amended_user_root_excluded_dirs (env : CompileEnv) (fs : List FsPath)
    (root : FsPath) (userDirs userPys : List String)
    (hroot : isDir fs root = true) :
    (∀ name ∈ userDirs, isDir fs (root ++ [name]) = true →
      ∀ f ∈ fs, (root ++ [name]).isPrefixOf f = true →
        f ∈ (mainRun env fs root userDirs userPys).copiedExcludedDirs)
    ∧ (∀ f ∈ (mainRun env fs root userDirs userPys).copiedExcludedDirs,
        f ∈ fs ∧ ∃ name ∈ userDirs,
          isDir fs (root ++ [name]) = true ∧ (root ++ [name]).isPrefixOf f = true) := by
  constructor
  · intro name hname hdir f hf hpre
    unfold mainRun
    rw [if_neg (by simp [hroot])]
    simp only [copy_excluded_directories, List.mem_flatMap]
    refine ⟨name, hname, ?_⟩
    rw [if_pos hdir]
    exact List.mem_filter.mpr ⟨hf, hpre⟩
  · intro f hf
    unfold mainRun at hf
    rw [if_neg (by simp [hroot])] at hf
    simp only [copy_excluded_directories, List.mem_flatMap] at hf
    obtain ⟨name, hname, hin⟩ := hf
    by_cases hdir : isDir fs (root ++ [name]) = true
    · rw [if_pos hdir] at hin
      have hm := List.mem_filter.mp hin
      exact ⟨hm.1, name, hname, hdir, hm.2⟩
    · rw [if_neg hdir] at hin
      exact absurd hin (List.not_mem_nil f)

/-- Witness for `C2_amended_user_root_excluded_dirs` at a concrete project:
a file inside the user-excluded root-level directory `tests` is copied. -/
theorem C2_amended_witness :
    ["proj", "tests", "t.py"] ∈
      (mainRun trivialEnv [["proj", "a.py"], ["proj", "tests", "t.py"]] ["proj"] ["tests"] []).copiedExcludedDirs :=
  (C2_amended_user_root_excluded_dirs trivialEnv
    [["proj", "a.py"], ["proj", "tests", "t.py"]] ["proj"] ["tests"] [] (by decide)).1
    "tests" (by decide) (by decide) ["proj", "tests", "t.py"] (by decide) (by decide)

/-- C3: for an otherwise compile-eligible file and a single well-formed
wildcard rule (leading `*`, trailing `.py`, length above 2, no `/` after the
`*`, and not coinciding with the file's relative path), the file is excluded
from compilation exactly when its filename equals the pattern with the `*`
removed; a filename merely ending in that string is not matched. -/
theorem C3_glob_excludes_exact_filename (file root : FsPath) (xdirs : List String)
    (pattern : String)
    (hsuf : fileSuffix (pathName file) = ".py")
    (hban : pathName file ∉ EXCLUDE_FILES)
    (hhid : ¬((∃ pre ∈ EXCLUDE_PREFIXES, strStartsWith (pathName file) pre = true) ∧
      pathName file ≠ "__init__.py"))
    (hdirs : ¬∃ part ∈ file, part ∈ xdirs)
    (hrel : root.isPrefixOf file = true)
    (hexact : String.intercalate "/" (file.drop root.length) ≠ pattern)
    (hstar : strStartsWith pattern "*" = true)
    (hpy : strEndsWith pattern ".py" = true)
    (hlen : 2 < strLength pattern)
    (hslash : strContains (strDrop pattern 1) '/' = false) :
    is_valid_module file xdirs [pattern] root = false ↔ pathName file = strDrop pattern 1 := by
  unfold is_valid_module relativeTo?
  rw [if_pos hrel]
  simp only [hsuf, hban, hhid, hdirs, List.mem_singleton, hexact, globCond, hstar, hpy, hlen,
    hslash, ne_eq, not_true_eq_false, not_false_eq_true, if_false, if_true, exists_eq_left,
    true_and, and_true]
  split_ifs with h <;> simp_all

/-- Witness for `C3_glob_excludes_exact_filename`: with rule `*b.py`,
`pkg/b.py` is excluded from compilation while `pkg/ab.py` (whose name merely
ends in `b.py`) stays a compile unit. -/
theorem C3_witness :
    is_valid_module ["proj", "pkg", "b.py"] [] ["*b.py"] ["proj"] = false
    ∧ is_valid_module ["proj", "pkg", "ab.py"] [] ["*b.py"] ["proj"] = true := by
  constructor
  · exact (C3_glob_excludes_exact_filename ["proj", "pkg", "b.py"] ["proj"] [] "*b.py"
      (by decide) (by decide) (by decide) (by decide) (by decide) (by decide) (by decide)
      (by decide) (by decide) (by decide)).mpr (by decide)
  · have h := C3_glob_excludes_exact_filename ["proj", "pkg", "ab.py"] ["proj"] [] "*b.py"
      (by decide) (by decide) (by decide) (by decide) (by decide) (by decide) (by decide)
      (by decide) (by decide) (by decide)
    rcases Bool.eq_false_or_eq_true
        (is_valid_module ["proj", "pkg", "ab.py"] [] ["*b.py"] ["proj"]) with ht | hf
    · exact ht
    · exact absurd (h.mp hf) (by decide)

/-- C9: the hidden/private-prefix drop fires only for a file whose name both
starts with such a prefix and is not the package marker `__init__.py`; in
particular a file named `__init__.py` is never classified as hidden-prefix
dropped, whatever the user rules. -/
theorem C9_init_never_dropped_hidden (file_path : FsPath) (xd xp : List String)
    (root : FsPath) :
    (classifyModule file_path xd xp root = ModuleClass.hiddenPrefix →
      (∃ pre ∈ EXCLUDE_PREFIXES, strStartsWith (pathName file_path) pre = true) ∧
        pathName file_path ≠ "__init__.py")
    ∧ (pathName file_path = "__init__.py" →
        classifyModule file_path xd xp root ≠ ModuleClass.hiddenPrefix) := by
  constructor
  · intro h
    unfold classifyModule at h
    rcases hrel : relativeTo? file_path root with _ | rel <;> rw [hrel] at h <;>
      split_ifs at h <;> (repeat' split at h) <;> simp_all
  · intro hname h
    unfold classifyModule at h
    rcases hrel : relativeTo? file_path root with _ | rel <;> rw [hrel] at h <;>
      split_ifs at h <;> (repeat' split at h) <;> simp_all

/-- Witness for `C9_init_never_dropped_hidden`: a concrete `__init__.py`,
even under rules naming it, is not hidden-prefix dropped. -/
theorem C9_witness :
    classifyModule ["proj", "pkg", "__init__.py"] ["docs"] ["*__init__.py"] ["proj"] ≠
      ModuleClass.hiddenPrefix :=
  (C9_init_never_dropped_hidden ["proj", "pkg", "__init__.py"] ["docs"] ["*__init__.py"]
    ["proj"]).2 (by decide)

/-- C10: the directory-exclusion test runs over the segments of the full
absolute path, so when an ancestor directory of the project root itself bears
an excluded name, every file under the root fails `is_valid_module` and every
non-source resource is left out of `copy_non_python_files`'s selection. -/
theorem C10_absolute_path_segments (fs : List FsPath) (root : FsPath)
    (xd xp : List String) (seg : String) (hseg : seg ∈ root) (hex : seg ∈ xd)
    (f : FsPath) (hpre : root.isPrefixOf f = true) :
    is_valid_module f xd xp root = false
    ∧ (strToLower (fileSuffix (pathName f)) ∉ [".py", ".pyx"] →
        f ∉ files_to_copy fs root xd) := by
  have hmem : seg ∈ f := (List.isPrefixOf_iff_prefix.mp hpre).subset hseg
  constructor
  · unfold is_valid_module
    split_ifs with h1 h2 h3 h4 <;> first | rfl | exact absurd ⟨seg, hmem, hex⟩ h4
  · intro _ hcopy
    simp only [files_to_copy, List.mem_filter, Bool.and_eq_true, Bool.not_eq_true',
      decide_eq_false_iff_not] at hcopy
    exact hcopy.2.2 ⟨seg, hmem, hex⟩

/-- Witness for `C10_absolute_path_segments`: a project rooted below a
directory named `build` compiles nothing and copies no resources. -/
theorem C10_witness :
    is_valid_module ["home", "build", "proj", "a.py"] EXCLUDE_DIRS [] ["home", "build", "proj"] = false
    ∧ (strToLower (fileSuffix (pathName ["home", "build", "proj", "data.txt"])) ∉ [".py", ".pyx"] →
        ["home", "build", "proj", "data.txt"] ∉
          files_to_copy [["home", "build", "proj", "a.py"], ["home", "build", "proj", "data.txt"]]
            ["home", "build", "proj"] EXCLUDE_DIRS) := by
  constructor
  · exact (C10_absolute_path_segments
      [["home", "build", "proj", "a.py"], ["home", "build", "proj", "data.txt"]]
      ["home", "build", "proj"] EXCLUDE_DIRS [] "build" (by decide) (by decide)
      ["home", "build", "proj", "a.py"] (by decide)).1
  · exact (C10_absolute_path_segments
      [["home", "build", "proj", "a.py"], ["home", "build", "proj", "data.txt"]]
      ["home", "build", "proj"] EXCLUDE_DIRS [] "build" (by decide) (by decide)
      ["home", "build", "proj", "data.txt"] (by decide)).2

end PyShield
